import Mathlib

/-!
Verification of the attendance-service reconciliation core.

Shallow embedding of the JavaScript source:
  * absolute instants are `Int` milliseconds since the Unix epoch
    (JavaScript `Date.getTime()`);
  * `null`/`undefined` string fields are `Option String`;
  * fallible parsing returns `Option`.

Embedded functions (names follow the source):
  * `isDuplicate` — the 30-second same-device duplicate check of
    `processTimeAttendanceEvent` (timeAttendanceController.js) and
    `updateAttendanceTime` (attendanceController.js);
  * `updateAttendanceTime` — the TimeAttendance model method (min/max
    recomputation from all raw data);
  * `recalculateAttendanceTimes`, `fixAllAttendanceForEmployee` — the repair
    path of the TimeAttendance model;
  * `normalizeDateToVNTimezone`, `parseAndNormalizeDateString` — day bucketing;
  * `jsDateParse` / `parseAttendanceTimestamp` — timestamp normalization,
    with the host timezone offset an explicit parameter because JavaScript's
    `new Date(string)` reads offset-less date-times in the host zone;
  * `updateCheckInOutTimes`, `processTimeAttendanceEvent` — the hour-of-day
    boundary heuristic and the controller ingestion step;
  * `uploadBatchCounts`, `handleHikvisionPosts` — the per-item skip/error
    accounting of the two ingestion loops.
-/

/-- Days from 1970-01-01 to the given Gregorian calendar date
(Howard Hinnant's `days_from_civil`; what JavaScript `Date.UTC(y, m-1, d)`
divides out to).  Intended for years ≥ 1. -/
def daysFromCivil (y m d : Int) : Int :=
  let y' : Int := if m ≤ 2 then y - 1 else y
  let era : Int := (if 0 ≤ y' then y' else y' - 399) / 400
  let yoe : Int := y' - era * 400
  let mp : Int := if 2 < m then m - 3 else m + 9
  let doy : Int := (153 * mp + 2) / 5 + d - 1
  let doe : Int := yoe * 365 + yoe / 4 - yoe / 100 + doy
  era * 146097 + doe - 719468

/-- Gregorian calendar date (year, month, day) of a day count since
1970-01-01 (Hinnant's `civil_from_days`; what JavaScript `getUTCFullYear`,
`getUTCMonth`, `getUTCDate` extract). -/
def civilFromDays (z0 : Int) : Int × Int × Int :=
  let z : Int := z0 + 719468
  let era : Int := (if 0 ≤ z then z else z - 146096) / 146097
  let doe : Int := z - era * 146097
  let yoe : Int := (doe - doe / 1460 + doe / 36524 - doe / 146096) / 365
  let y : Int := yoe + era * 400
  let doy : Int := doe - (365 * yoe + yoe / 4 - yoe / 100)
  let mp : Int := (5 * doy + 2) / 153
  let d : Int := doy - (153 * mp + 2) / 5 + 1
  let m : Int := if mp < 10 then mp + 3 else mp - 9
  (if m ≤ 2 then y + 1 else y, m, d)

/-- Epoch milliseconds of a UTC calendar date/time, the fields read with no
shifting. -/
def msOfUTC (y m d hh mi ss : Nat) : Int :=
  daysFromCivil y m d * 86400000 + (hh * 3600000 + mi * 60000 + ss * 1000 : Nat)

/-- `VN_TIMEZONE_OFFSET_MS = 7 * 60 * 60 * 1000` from TimeAttendance.js. -/
def VN_TIMEZONE_OFFSET_MS : Int := 7 * 60 * 60 * 1000

/-- One element of a record's `rawData`/`raw_data` array: `{timestamp,
deviceId}`.  The `recordedAt`/`recorded_at` server-receipt field is carried by
the source but never read by any logic, so it is not modelled. -/
structure RawEvent where
  timestamp : Int
  deviceId : Option String
  deriving Repr, DecidableEq

/-- The mongoose TimeAttendance document, restricted to the fields the
reconciliation logic reads or writes. -/
structure DayRecord where
  employeeCode : String
  date : Int
  checkInTime : Option Int
  checkOutTime : Option Int
  totalCheckIns : Nat
  deviceId : Option String
  rawData : List RawEvent
  deriving Repr, DecidableEq

/-- `allTimes.sort((a, b) => a.getTime() - b.getTime())`: sort the instants
ascending (insertion sort, a stable comparison sort like the JavaScript
one). -/
def sortTimes (l : List Int) : List Int := List.insertionSort (· ≤ ·) l

/-- The duplicate test of `processTimeAttendanceEvent` and of
`updateAttendanceTime` in attendanceController.js:
`Math.abs(checkTime.diff(existingTime, 'seconds')) < 30 && sameDevice`.
`moment.diff(_, 'seconds')` truncates the millisecond difference. -/
def isDuplicate (rawData : List RawEvent) (candTime : Int)
    (candDevice : Option String) : Bool :=
  rawData.any fun item =>
    decide ((candTime - item.timestamp).natAbs / 1000 < 30)
      && item.deviceId == candDevice

/-- `timeAttendanceSchema.methods.updateAttendanceTime`: push the event onto
`rawData`, then set `checkInTime`/`checkOutTime` to the event itself when it
is the only one, otherwise re-sort all timestamps and take first and last. -/
def updateAttendanceTime (r : DayRecord) (timestamp : Int)
    (deviceId : Option String) : DayRecord :=
  let newEvent : RawEvent :=
    ⟨timestamp, match deviceId with | some d => some d | none => r.deviceId⟩
  let rawData := r.rawData ++ [newEvent]
  if rawData.length = 1 then
    { r with rawData := rawData, checkInTime := some timestamp,
             checkOutTime := some timestamp, totalCheckIns := 1 }
  else
    let allTimes := sortTimes (rawData.map (·.timestamp))
    { r with rawData := rawData, checkInTime := allTimes.head?,
             checkOutTime := allTimes.getLast?, totalCheckIns := rawData.length }

/-- The `seen`-set loop of `recalculateAttendanceTimes`: keep an item iff its
key `(timestamp, deviceId)` (the source's string key
`` `${getTime()}-${deviceId}` ``) was not seen before. -/
def dedupByKey : List RawEvent → List (Int × Option String) → List RawEvent
  | [], _ => []
  | x :: xs, seen =>
    let key := (x.timestamp, x.deviceId)
    if key ∈ seen then dedupByKey xs seen
    else x :: dedupByKey xs (key :: seen)

/-- `timeAttendanceSchema.methods.recalculateAttendanceTimes`: no-op on empty
`rawData`; otherwise replace `rawData` by its exact-key deduplication and
recompute `checkInTime`/`checkOutTime`/`totalCheckIns` from it. -/
def recalculateAttendanceTimes (r : DayRecord) : DayRecord :=
  if r.rawData = [] then r
  else
    let uniq := dedupByKey r.rawData []
    if uniq.length = 1 then
      { r with rawData := uniq,
               checkInTime := (uniq.map (·.timestamp)).head?,
               checkOutTime := (uniq.map (·.timestamp)).head?,
               totalCheckIns := 1 }
    else if 1 < uniq.length then
      let allTimes := sortTimes (uniq.map (·.timestamp))
      { r with rawData := uniq, checkInTime := allTimes.head?,
               checkOutTime := allTimes.getLast?, totalCheckIns := uniq.length }
    else
      { r with rawData := uniq }

/-- Return value of `fixAllAttendanceForEmployee`: the stored records after
the pass, `fixedCount` and `totalRecords`. -/
structure FixResult where
  records : List DayRecord
  fixedCount : Nat
  totalRecords : Nat
  deriving Repr, DecidableEq

/-- The loop body of `fixAllAttendanceForEmployee`: recalculate each record
and save it back only when `checkOutTime` changed (the source compares
`originalCheckOut !== record.checkOutTime?.toISOString()`); an unsaved
record keeps its stored state. -/
def fixAllGo : List DayRecord → List DayRecord × Nat
  | [] => ([], 0)
  | r :: rs =>
    let r' := recalculateAttendanceTimes r
    let rest := fixAllGo rs
    if r'.checkOutTime = r.checkOutTime then (r :: rest.1, rest.2)
    else (r' :: rest.1, rest.2 + 1)

/-- `timeAttendanceSchema.statics.fixAllAttendanceForEmployee` over the list
of stored records of one employee. -/
def fixAllAttendanceForEmployee (records : List DayRecord) : FixResult :=
  let res := fixAllGo records
  ⟨res.1, res.2, records.length⟩

/-- `timeAttendanceSchema.statics.normalizeDateToVNTimezone`: add the +7:00
offset, extract the civil date with UTC getters, rebuild that date's UTC
midnight and subtract the offset again. -/
def normalizeDateToVNTimezone (t : Int) : Int :=
  let vnTime := t + VN_TIMEZONE_OFFSET_MS
  let days := vnTime / 86400000
  let ymd := civilFromDays days
  daysFromCivil ymd.1 ymd.2.1 ymd.2.2 * 86400000 - VN_TIMEZONE_OFFSET_MS

/-- `dateStr.split('-')` on the character list of the string. -/
def splitOnDash : List Char → List (List Char)
  | [] => [[]]
  | c :: rest =>
    if c = '-' then [] :: splitOnDash rest
    else
      match splitOnDash rest with
      | [] => [[c]]
      | p :: ps => (c :: p) :: ps

/-- JavaScript `parseInt` on a field: reads the leading decimal digits,
`NaN` (here `none`) when the field does not start with a digit. -/
def parseIntPrefix (cs : List Char) : Option Nat :=
  match cs with
  | c :: rest =>
      if c.isDigit then some (parseIntGo rest (c.toNat - 48)) else none
  | [] => none
where parseIntGo : List Char → Nat → Nat
  | c :: rest, acc =>
      if c.isDigit then parseIntGo rest (acc * 10 + (c.toNat - 48)) else acc
  | [], acc => acc

/-- `timeAttendanceSchema.statics.parseAndNormalizeDateString`: split a
`YYYY-MM-DD` string on `-`, parse the three fields, and return that date's
VN-midnight instant (`Date.UTC(year, month - 1, day) - offset`; the source
subtracts 1 because JavaScript months are 0-indexed, which cancels here). -/
def parseAndNormalizeDateString (s : String) : Option Int :=
  let parts := splitOnDash s.toList
  if parts.length ≠ 3 then none
  else
    match parseIntPrefix (parts.getD 0 []), parseIntPrefix (parts.getD 1 []),
          parseIntPrefix (parts.getD 2 []) with
    | some y, some m, some d =>
        some (daysFromCivil y m d * 86400000 - VN_TIMEZONE_OFFSET_MS)
    | _, _, _ => none

/-- Leap year of the proleptic Gregorian calendar. -/
def isLeap (y : Nat) : Bool := y % 4 = 0 && (y % 100 ≠ 0 || y % 400 = 0)

/-- Length of a month. -/
def daysInMonth (y m : Nat) : Nat :=
  if m = 2 then (if isLeap y then 29 else 28)
  else if m = 4 ∨ m = 6 ∨ m = 9 ∨ m = 11 then 30
  else 31

/-- Exactly two decimal digits. -/
def parse2 : List Char → Option (Nat × List Char)
  | a :: b :: rest =>
    if a.isDigit ∧ b.isDigit then
      some ((a.toNat - 48) * 10 + (b.toNat - 48), rest)
    else none
  | _ => none

/-- Exactly four decimal digits. -/
def parse4 : List Char → Option (Nat × List Char)
  | a :: b :: c :: d :: rest =>
    if a.isDigit ∧ b.isDigit ∧ c.isDigit ∧ d.isDigit then
      some ((((a.toNat - 48) * 10 + (b.toNat - 48)) * 10 + (c.toNat - 48)) * 10
              + (d.toNat - 48), rest)
    else none
  | _ => none

/-- The `YYYY-MM-DD` head of an ISO-8601 string. -/
def parseDatePart (cs : List Char) : Option (Nat × Nat × Nat × List Char) :=
  match parse4 cs with
  | some (y, '-' :: r1) =>
    match parse2 r1 with
    | some (m, '-' :: r2) =>
      match parse2 r2 with
      | some (d, rest) => some (y, m, d, rest)
      | _ => none
    | _ => none
  | _ => none

/-- The `HH:MM:SS` time-of-day part. -/
def parseTimePart (cs : List Char) : Option (Nat × Nat × Nat × List Char) :=
  match parse2 cs with
  | some (hh, ':' :: r1) =>
    match parse2 r1 with
    | some (mi, ':' :: r2) =>
      match parse2 r2 with
      | some (ss, rest) => some (hh, mi, ss, rest)
      | _ => none
    | _ => none
  | _ => none

/-- Timezone suffix of an ISO-8601 date-time: `some none` when the string has
no offset marker (a naive local time), `some (some o)` for an explicit offset
of `o` milliseconds (`Z` is offset 0), `none` when the suffix is malformed. -/
def parseTzSuffix : List Char → Option (Option Int)
  | [] => some none
  | ['Z'] => some (some 0)
  | '+' :: rest =>
    match parse2 rest with
    | some (h, ':' :: r1) =>
      match parse2 r1 with
      | some (m, []) => some (some ((h * 60 + m : Nat) * 60000))
      | _ => none
    | _ => none
  | '-' :: rest =>
    match parse2 rest with
    | some (h, ':' :: r1) =>
      match parse2 r1 with
      | some (m, []) => some (some (-((h * 60 + m : Nat) * 60000 : Int)))
      | _ => none
    | _ => none
  | _ => none

/-- JavaScript `new Date(string).getTime()` on ISO-8601 strings, as the ES
specification fixes it: a date-only form denotes UTC midnight; a date-time
form with an explicit offset (or `Z`) denotes `fields - offset`; a date-time
form with no offset marker denotes local time in the host timezone, so the
result depends on the host offset `hostOffsetMs`.  Out-of-range calendar
fields or unparsable text give `none` (an invalid date). -/
def jsDateParse (hostOffsetMs : Int) (s : String) : Option Int :=
  match parseDatePart s.toList with
  | some (y, m, d, rest) =>
    if 1 ≤ m ∧ m ≤ 12 ∧ 1 ≤ d ∧ d ≤ daysInMonth y m then
      match rest with
      | [] => some (daysFromCivil y m d * 86400000)
      | 'T' :: timeCs =>
        match parseTimePart timeCs with
        | some (hh, mi, ss, tzCs) =>
          if hh ≤ 23 ∧ mi ≤ 59 ∧ ss ≤ 59 then
            match parseTzSuffix tzCs with
            | some none => some (msOfUTC y m d hh mi ss - hostOffsetMs)
            | some (some off) => some (msOfUTC y m d hh mi ss - off)
            | none => none
          else none
        | none => none
      | _ => none
    else none
  | none => none

/-- `timeAttendanceSchema.statics.parseAttendanceTimestamp`: `new Date` on
the string, an `Invalid datetime format` error (here `none`) when the result
is `NaN`.  The source's three `includes`-based cases only choose a log
message; every case returns the parsed timestamp unchanged, so the function
is exactly the JavaScript parse. -/
def parseAttendanceTimestamp (hostOffsetMs : Int) (s : String) : Option Int :=
  jsDateParse hostOffsetMs s

/-- `moment(t).hour()` as seen by a process whose host timezone is the fixed
offset `offsetMs` (the deployment pins `TIMEZONE=Asia/Ho_Chi_Minh`). -/
def hourAtOffset (offsetMs : Int) (t : Int) : Int :=
  ((t + offsetMs) % 86400000) / 3600000

/-- The if/else-if chain of `updateCheckInOutTimes` before its final swap:
take the new instant as check-in when there is none yet or it is an earlier
likely check-in (hour in `[6,12]`); else as check-out when there is none yet
or it is a later likely check-out (hour in `[15,22]`); else update whichever
boundary the likely classification and minute proximity
(`moment.diff(_, 'minutes')`, truncated) select, or neither.  The source's
last `checkIn && !checkOut` fallback branch is unreachable because the second
branch already catches every null check-out.  `hourOf` abstracts
`moment(newTime).hour()`. -/
def classifyBoundaries (hourOf : Int → Int) (currentCheckIn : Option Int)
    (currentCheckOut : Option Int) (newTime : Int) : Option Int × Option Int :=
  let h := hourOf newTime
  let isLikelyCheckIn := 6 ≤ h ∧ h ≤ 12
  let isLikelyCheckOut := 15 ≤ h ∧ h ≤ 22
  match currentCheckIn with
  | none => (some newTime, currentCheckOut)
  | some ci =>
    if isLikelyCheckIn ∧ newTime < ci then (some newTime, currentCheckOut)
    else
      match currentCheckOut with
      | none => (some ci, some newTime)
      | some co =>
        if isLikelyCheckOut ∧ co < newTime then (some ci, some newTime)
        else
          let distIn := (newTime - ci).natAbs / 60000
          let distOut := (newTime - co).natAbs / 60000
          if isLikelyCheckIn ∧ distIn < distOut then (some newTime, some co)
          else if isLikelyCheckOut ∧ distOut < distIn then (some ci, some newTime)
          else (some ci, some co)

/-- The closing step of `updateCheckInOutTimes`: swap the pair whenever both
boundaries are set and check-in is after check-out. -/
def swapIfNeeded (p : Option Int × Option Int) : Option Int × Option Int :=
  match p with
  | (some a, some b) => if b < a then (some b, some a) else (some a, some b)
  | q => q

/-- `updateCheckInOutTimes` of timeAttendanceController.js (identical to
`_updateCheckInOutTimes` of attendanceController.js): the hour-of-day
heuristic followed by the final swap that keeps check-in ≤ check-out. -/
def updateCheckInOutTimes (hourOf : Int → Int) (currentCheckIn : Option Int)
    (currentCheckOut : Option Int) (newTime : Int) : Option Int × Option Int :=
  swapIfNeeded (classifyBoundaries hourOf currentCheckIn currentCheckOut newTime)

/-- The per-day document of the `time_attendance` collection
(`findOrCreateTimeAttendance` in config/database.js), restricted to the
fields `processTimeAttendanceEvent` reads or writes. -/
structure FrappeRecord where
  check_in_time : Option Int
  check_out_time : Option Int
  total_check_ins : Nat
  raw_data : List RawEvent
  deriving Repr, DecidableEq

/-- The freshly created day document: empty `raw_data`, null boundaries. -/
def emptyFrappeRecord : FrappeRecord := ⟨none, none, 0, []⟩

/-- The state change of `processTimeAttendanceEvent`
(timeAttendanceController.js) on one event: drop it when `isDuplicate`,
otherwise append it to `raw_data`, run `updateCheckInOutTimes`, and store the
returned boundary when it is non-null (`updatedTimes.checkIn ? ... :
record.check_in_time`), with `total_check_ins = rawData.length`. -/
def processTimeAttendanceEvent (hourOf : Int → Int) (r : FrappeRecord)
    (timestamp : Int) (device_id : Option String) : FrappeRecord :=
  if isDuplicate r.raw_data timestamp device_id then r
  else
    let rawData := r.raw_data ++ [⟨timestamp, device_id⟩]
    let updated := updateCheckInOutTimes hourOf r.check_in_time
      r.check_out_time timestamp
    { check_in_time := match updated.1 with
        | some t => some t
        | none => r.check_in_time,
      check_out_time := match updated.2 with
        | some t => some t
        | none => r.check_out_time,
      total_check_ins := rawData.length,
      raw_data := rawData }

/-- A sequence of ingestion calls for one employee and day, starting from the
lazily created empty document. -/
def applyProcessEvents (hourOf : Int → Int)
    (events : List (Int × Option String)) : FrappeRecord :=
  events.foldl (fun r e => processTimeAttendanceEvent hourOf r e.1 e.2)
    emptyFrappeRecord

/-- The day record created by `findOrCreateDayRecord` before any event:
`rawData: []`, boundaries and counters at their schema defaults. -/
def freshDayRecord (employeeCode : String) (date : Int)
    (deviceId : Option String) : DayRecord :=
  ⟨employeeCode, date, none, none, 0, deviceId, []⟩

/-- A sequence of accepted events applied through the model method
`updateAttendanceTime`, as the mongoose ingestion paths do. -/
def applyModelEvents (events : List (Int × Option String)) : DayRecord :=
  events.foldl (fun r e => updateAttendanceTime r e.1 e.2)
    (freshDayRecord "E1" 0 none)

/-- Deduplication as §4.3/§4.5 of the specification words it (stated for the
refinement comparison of the repair path, not translated from the source):
scan in order and keep an event iff it is not within 30 seconds, same device,
of an already-kept event, so the earliest representative of each duplicate
group survives. -/
def dedupByFilterRule : List RawEvent → List RawEvent
  | [] => []
  | e :: rest => e :: dedupByFilterRuleAux rest [e]
where dedupByFilterRuleAux : List RawEvent → List RawEvent → List RawEvent
  | [], _ => []
  | e :: rest, kept =>
    if isDuplicate kept e.timestamp e.deviceId then
      dedupByFilterRuleAux rest kept
    else e :: dedupByFilterRuleAux rest (kept ++ [e])

/-- One item of the `uploadAttendanceBatch` payload, reduced to the two
required fields; `none` is a missing field. -/
structure BatchItem where
  fingerprintCode : Option String
  dateTime : Option String
  deriving Repr, DecidableEq

/-- The error/success accounting of the `uploadAttendanceBatch` loop:
an item with `fingerprintCode` or `dateTime` absent is pushed onto `errors`
and the loop continues; an unparsable timestamp is also an error; every
other item is processed.  Returns (processed or updated, errors). -/
def uploadBatchCounts (hostOffsetMs : Int) : List BatchItem → Nat × Nat
  | [] => (0, 0)
  | item :: rest =>
    let acc := uploadBatchCounts hostOffsetMs rest
    match item.fingerprintCode, item.dateTime with
    | some _, some dt =>
      match parseAttendanceTimestamp hostOffsetMs dt with
      | some _ => (acc.1 + 1, acc.2)
      | none => (acc.1, acc.2 + 1)
    | _, _ => (acc.1, acc.2 + 1)

/-- One `ActivePost`/`AccessControllerEvent` entry of a Hikvision webhook
event, reduced to the identity and timestamp fields the loop reads. -/
structure HikPost where
  employeeNoString : Option String
  FPID : Option String
  cardNo : Option String
  employeeCode : Option String
  userID : Option String
  dateTime : Option String
  deriving Repr, DecidableEq

/-- `post.employeeNoString || post.FPID || post.cardNo || post.employeeCode
|| post.userID`. -/
def hikEmployeeCode (p : HikPost) : Option String :=
  (((p.employeeNoString.or p.FPID).or p.cardNo).or p.employeeCode).or p.userID

/-- The error/success accounting of the `handleHikvisionEvent` posts loop:
a post with no employee code or no timestamp is skipped with `continue` and
no error entry (a device status event); an unparsable timestamp is an error;
every other post is processed.  `topDateTime` is the event-level `dateTime`
fallback.  Returns (recordsProcessed, errors). -/
def handleHikvisionPosts (hostOffsetMs : Int) (topDateTime : Option String) :
    List HikPost → Nat × Nat
  | [] => (0, 0)
  | post :: rest =>
    let acc := handleHikvisionPosts hostOffsetMs topDateTime rest
    match hikEmployeeCode post, post.dateTime.or topDateTime with
    | some _, some ts =>
      match parseAttendanceTimestamp hostOffsetMs ts with
      | some _ => (acc.1 + 1, acc.2)
      | none => (acc.1, acc.2 + 1)
    | _, _ => acc

/-- The Vietnam host offset, +7:00, in milliseconds. -/
def vnHostOffsetMs : Int := 25200000

/-- `moment(t).hour()` on the production host (Asia/Ho_Chi_Minh). -/
def hourVN (t : Int) : Int := hourAtOffset vnHostOffsetMs t

/-- 2025-01-15 08:02:11 Vietnam local time as an absolute instant. -/
def scenarioT1 : Int := msOfUTC 2025 1 15 1 2 11

/-- 2025-01-15 08:02:15 Vietnam local time (4 seconds after `scenarioT1`). -/
def scenarioT2 : Int := msOfUTC 2025 1 15 1 2 15

/-- 2025-01-15 17:45:00 Vietnam local time as an absolute instant. -/
def scenarioT3 : Int := msOfUTC 2025 1 15 10 45 0

/-- The §8 concrete scenario ingested in order on the controller path. -/
def scenarioInOrder : FrappeRecord :=
  applyProcessEvents hourVN
    [(scenarioT1, some "D1"), (scenarioT2, some "D1"), (scenarioT3, some "D1")]

/-- The §8 scenario with `17:45:00` ingested first, then `08:02:11`. -/
def scenarioOutOfOrder : FrappeRecord :=
  applyProcessEvents hourVN [(scenarioT3, some "D1"), (scenarioT1, some "D1")]

/-- A stored record whose two raw events are 10 seconds apart on the same
device: duplicates under the 30-second filter rule, distinct under the repair
path's exact-key rule. -/
def closePairRecord : DayRecord :=
  ⟨"E1", 0, none, none, 2, none, [⟨0, some "A"⟩, ⟨10000, some "A"⟩]⟩

/-- A stored record whose recomputed `checkInTime`, `totalCheckIns` and
deduplicated raw list all differ from the stored values while the recomputed
`checkOutTime` does not. -/
def staleCheckInRecord : DayRecord :=
  ⟨"E1", 0, some 999, some 10000, 3, none,
   [⟨500, some "A"⟩, ⟨10000, some "A"⟩, ⟨10000, some "A"⟩]⟩

/-- The two §3 data-model invariants on a controller-path record. -/
def frappeInv (r : FrappeRecord) : Prop :=
  (∀ a b, r.check_in_time = some a → r.check_out_time = some b → a ≤ b) ∧
  r.total_check_ins = r.raw_data.length

/-- The two §3 data-model invariants on a model-path record. -/
def modelInv (r : DayRecord) : Prop :=
  (∀ a b, r.checkInTime = some a → r.checkOutTime = some b → a ≤ b) ∧
  r.totalCheckIns = r.rawData.length

theorem sortTimes_sorted (l : List Int) : List.Sorted (· ≤ ·) (sortTimes l) :=
  List.sorted_insertionSort _ l

theorem sortTimes_perm (l : List Int) : (sortTimes l).Perm l :=
  List.perm_insertionSort _ l

theorem sortTimes_ne_nil {l : List Int} (h : l ≠ []) : sortTimes l ≠ [] := by
  intro hc
  exact h (((sortTimes_perm l).symm.trans (hc ▸ List.Perm.refl _)).eq_nil)

theorem sorted_head?_le {l : List Int} {a x : Int}
    (hs : List.Sorted (· ≤ ·) l) (h : l.head? = some a) (hx : x ∈ l) :
    a ≤ x := by
  cases l with
  | nil => cases hx
  | cons y ys =>
    cases h
    rcases List.mem_cons.mp hx with rfl | hx'
    · exact le_refl x
    · exact List.rel_of_sorted_cons hs x hx'

theorem sorted_getLast?_ge {l : List Int} {b : Int}
    (hs : List.Sorted (· ≤ ·) l) (h : l.getLast? = some b) :
    ∀ x ∈ l, x ≤ b := by
  induction l with
  | nil => intro x hx; cases hx
  | cons y ys ih =>
    intro x hx
    cases ys with
    | nil =>
      cases h
      rcases List.mem_cons.mp hx with rfl | hx'
      · exact le_refl x
      · cases hx'
    | cons z zs =>
      rw [List.getLast?_cons_cons] at h
      rcases List.mem_cons.mp hx with rfl | hx'
      · exact List.rel_of_sorted_cons hs b (List.mem_of_mem_getLast? h)
      · exact ih hs.of_cons h x hx'

theorem sortTimes_head?_min {l : List Int} {a : Int}
    (h : (sortTimes l).head? = some a) : a ∈ l ∧ ∀ x ∈ l, a ≤ x := by
  have ha : a ∈ sortTimes l := List.mem_of_mem_head? h
  refine ⟨(sortTimes_perm l).mem_iff.mp ha, fun x hx => ?_⟩
  exact sorted_head?_le (sortTimes_sorted l) h ((sortTimes_perm l).mem_iff.mpr hx)

theorem sortTimes_getLast?_max {l : List Int} {b : Int}
    (h : (sortTimes l).getLast? = some b) : b ∈ l ∧ ∀ x ∈ l, x ≤ b := by
  have hb : b ∈ sortTimes l := List.mem_of_mem_getLast? h
  refine ⟨(sortTimes_perm l).mem_iff.mp hb, fun x hx => ?_⟩
  exact sorted_getLast?_ge (sortTimes_sorted l) h x
    ((sortTimes_perm l).mem_iff.mpr hx)

theorem sortTimes_head?_le_getLast? {l : List Int} {a b : Int}
    (ha : (sortTimes l).head? = some a) (hb : (sortTimes l).getLast? = some b) :
    a ≤ b :=
  (sortTimes_head?_min ha).2 b (sortTimes_getLast?_max hb).1

theorem dedupByKey_idem (l : List RawEvent)
    (seen : List (Int × Option String)) :
    dedupByKey (dedupByKey l seen) seen = dedupByKey l seen := by
  induction l generalizing seen with
  | nil => rfl
  | cons x xs ih =>
    by_cases hk : (x.timestamp, x.deviceId) ∈ seen
    · simp only [dedupByKey, if_pos hk]
      exact ih seen
    · simp only [dedupByKey, if_neg hk, if_pos, if_neg hk]
      rw [ih ((x.timestamp, x.deviceId) :: seen)]

theorem dedupByKey_nil_ne_nil {l : List RawEvent} (h : l ≠ []) :
    dedupByKey l [] ≠ [] := by
  cases l with
  | nil => exact absurd rfl h
  | cons x xs =>
    simp only [dedupByKey, List.not_mem_nil, if_neg]
    exact List.cons_ne_nil _ _

theorem swapIfNeeded_le {p : Option Int × Option Int} {a b : Int}
    (ha : (swapIfNeeded p).1 = some a) (hb : (swapIfNeeded p).2 = some b) :
    a ≤ b := by
  rcases p with ⟨x | x, y | y⟩
  · simp [swapIfNeeded] at ha
  · simp [swapIfNeeded] at ha
  · simp [swapIfNeeded] at hb
  · simp only [swapIfNeeded] at ha hb
    by_cases hxy : y < x
    · rw [if_pos hxy] at ha hb
      simp at ha hb
      omega
    · rw [if_neg hxy] at ha hb
      simp at ha hb
      omega

theorem swapIfNeeded_snd_none {p : Option Int × Option Int}
    (h : (swapIfNeeded p).2 = none) : p.2 = none := by
  rcases p with ⟨x | x, y | y⟩
  · rfl
  · simp [swapIfNeeded] at h
  · rfl
  · simp only [swapIfNeeded] at h
    by_cases hxy : y < x
    · rw [if_pos hxy] at h
      simp at h
    · rw [if_neg hxy] at h
      simp at h

theorem classifyBoundaries_snd_none {hourOf : Int → Int} {ci co : Option Int}
    {t : Int} (h : (classifyBoundaries hourOf ci co t).2 = none) :
    co = none := by
  rcases ci with _ | ci'
  · rcases co with _ | co'
    · rfl
    · simp [classifyBoundaries] at h
  · rcases co with _ | co'
    · rfl
    · simp only [classifyBoundaries] at h
      repeat' split at h
      all_goals simp at h

theorem updateCheckInOutTimes_le {hourOf : Int → Int} {ci co : Option Int}
    {t a b : Int}
    (ha : (updateCheckInOutTimes hourOf ci co t).1 = some a)
    (hb : (updateCheckInOutTimes hourOf ci co t).2 = some b) : a ≤ b :=
  swapIfNeeded_le ha hb

theorem updateCheckInOutTimes_snd_none {hourOf : Int → Int}
    {ci co : Option Int} {t : Int}
    (h : (updateCheckInOutTimes hourOf ci co t).2 = none) : co = none :=
  classifyBoundaries_snd_none (swapIfNeeded_snd_none h)

theorem classifyBoundaries_fst_some (hourOf : Int → Int) (ci co : Option Int)
    (t : Int) : ∃ x, (classifyBoundaries hourOf ci co t).1 = some x := by
  rcases ci with _ | ci'
  · exact ⟨t, rfl⟩
  · rcases co with _ | co' <;> simp only [classifyBoundaries]
    · split
      · exact ⟨t, rfl⟩
      · exact ⟨ci', rfl⟩
    · repeat' split
      all_goals first
        | exact ⟨t, rfl⟩
        | exact ⟨ci', rfl⟩

theorem swapIfNeeded_fst_some {p : Option Int × Option Int} {x : Int}
    (h : p.1 = some x) : ∃ y, (swapIfNeeded p).1 = some y := by
  rcases p with ⟨_ | u, _ | v⟩
  · cases h
  · cases h
  · exact ⟨u, rfl⟩
  · simp only [swapIfNeeded]
    by_cases hvu : v < u
    · rw [if_pos hvu]; exact ⟨v, rfl⟩
    · rw [if_neg hvu]; exact ⟨u, rfl⟩

theorem updateCheckInOutTimes_fst_some (hourOf : Int → Int)
    (ci co : Option Int) (t : Int) :
    ∃ x, (updateCheckInOutTimes hourOf ci co t).1 = some x := by
  obtain ⟨x, hx⟩ := classifyBoundaries_fst_some hourOf ci co t
  exact swapIfNeeded_fst_some hx

theorem processTimeAttendanceEvent_inv {hourOf : Int → Int}
    {r : FrappeRecord} (t : Int) (d : Option String) (hr : frappeInv r) :
    frappeInv (processTimeAttendanceEvent hourOf r t d) := by
  unfold processTimeAttendanceEvent
  by_cases hd : isDuplicate r.raw_data t d = true
  · rw [if_pos hd]; exact hr
  · rw [if_neg hd]
    constructor
    · intro a b ha hb
      simp only at ha hb
      rcases h1 : (updateCheckInOutTimes hourOf r.check_in_time
          r.check_out_time t).1 with _ | x
      · obtain ⟨x, hx⟩ := updateCheckInOutTimes_fst_some hourOf
          r.check_in_time r.check_out_time t
        rw [h1] at hx
        cases hx
      · rw [h1] at ha
        rcases h2 : (updateCheckInOutTimes hourOf r.check_in_time
            r.check_out_time t).2 with _ | y
        · rw [h2] at hb
          have hco := updateCheckInOutTimes_snd_none h2
          simp only at hb
          rw [hco] at hb
          cases hb
        · rw [h2] at hb
          simp only at ha hb
          cases ha
          cases hb
          exact updateCheckInOutTimes_le h1 h2
    · simp

theorem applyProcessEvents_inv (hourOf : Int → Int)
    (events : List (Int × Option String)) :
    frappeInv (applyProcessEvents hourOf events) := by
  have base : frappeInv emptyFrappeRecord := by
    constructor
    · intro a b ha _
      cases ha
    · rfl
  have go : ∀ (l : List (Int × Option String)) (r : FrappeRecord),
      frappeInv r →
      frappeInv (l.foldl
        (fun r e => processTimeAttendanceEvent hourOf r e.1 e.2) r) := by
    intro l
    induction l with
    | nil => intro r hr; exact hr
    | cons e es ih =>
      intro r hr
      exact ih _ (processTimeAttendanceEvent_inv e.1 e.2 hr)
  exact go events emptyFrappeRecord base

theorem sortTimes_map_append_ne_nil (l : List RawEvent) (e : RawEvent) :
    sortTimes ((l ++ [e]).map (·.timestamp)) ≠ [] :=
  sortTimes_ne_nil (by simp)

theorem updateAttendanceTime_le {r : DayRecord} {t : Int} {d : Option String}
    {a b : Int} (ha : (updateAttendanceTime r t d).checkInTime = some a)
    (hb : (updateAttendanceTime r t d).checkOutTime = some b) : a ≤ b := by
  revert ha hb
  simp only [updateAttendanceTime]
  split
  · intro ha hb
    simp only at ha hb
    cases ha
    cases hb
    exact le_refl _
  · intro ha hb
    simp only at ha hb
    exact sortTimes_head?_le_getLast? ha hb

theorem updateAttendanceTime_total (r : DayRecord) (t : Int)
    (d : Option String) :
    (updateAttendanceTime r t d).totalCheckIns =
      (updateAttendanceTime r t d).rawData.length := by
  simp only [updateAttendanceTime]
  split
  case isTrue h1 => simp only; omega
  case isFalse h1 => simp only

theorem updateAttendanceTime_isSome (r : DayRecord) (t : Int)
    (d : Option String) :
    (∃ a, (updateAttendanceTime r t d).checkInTime = some a) ∧
    (∃ b, (updateAttendanceTime r t d).checkOutTime = some b) := by
  constructor
  · rcases h : (updateAttendanceTime r t d).checkInTime with _ | a
    · exfalso
      revert h
      simp only [updateAttendanceTime]
      split
      · intro h
        exact Option.noConfusion h
      · intro h
        exact sortTimes_map_append_ne_nil _ _ (List.head?_eq_none_iff.mp h)
    · exact ⟨a, rfl⟩
  · rcases h : (updateAttendanceTime r t d).checkOutTime with _ | b
    · exfalso
      revert h
      simp only [updateAttendanceTime]
      split
      · intro h
        exact Option.noConfusion h
      · intro h
        exact sortTimes_map_append_ne_nil _ _ (List.getLast?_eq_none_iff.mp h)
    · exact ⟨b, rfl⟩

theorem DayRecord.ext' {r s : DayRecord}
    (h1 : r.employeeCode = s.employeeCode) (h2 : r.date = s.date)
    (h3 : r.checkInTime = s.checkInTime) (h4 : r.checkOutTime = s.checkOutTime)
    (h5 : r.totalCheckIns = s.totalCheckIns) (h6 : r.deviceId = s.deviceId)
    (h7 : r.rawData = s.rawData) : r = s := by
  cases r
  cases s
  simp_all

theorem recalc_spec {r : DayRecord} (h : r.rawData ≠ []) :
    (recalculateAttendanceTimes r).rawData = dedupByKey r.rawData [] ∧
    (recalculateAttendanceTimes r).totalCheckIns =
      (dedupByKey r.rawData []).length ∧
    (∀ a, (recalculateAttendanceTimes r).checkInTime = some a →
      a ∈ (dedupByKey r.rawData []).map (·.timestamp) ∧
      ∀ x ∈ (dedupByKey r.rawData []).map (·.timestamp), a ≤ x) ∧
    (∀ b, (recalculateAttendanceTimes r).checkOutTime = some b →
      b ∈ (dedupByKey r.rawData []).map (·.timestamp) ∧
      ∀ x ∈ (dedupByKey r.rawData []).map (·.timestamp), x ≤ b) ∧
    (∃ a, (recalculateAttendanceTimes r).checkInTime = some a) ∧
    (∃ b, (recalculateAttendanceTimes r).checkOutTime = some b) := by
  have hu : dedupByKey r.rawData [] ≠ [] := dedupByKey_nil_ne_nil h
  simp only [recalculateAttendanceTimes]
  rw [if_neg h]
  by_cases h1 : (dedupByKey r.rawData []).length = 1
  · rw [if_pos h1]
    obtain ⟨e, he⟩ := List.length_eq_one.mp h1
    refine ⟨rfl, h1.symm, ?_, ?_, ?_, ?_⟩
    · intro a ha
      simp only at ha
      rw [he] at ha
      simp only [List.map_cons, List.map_nil, List.head?_cons] at ha
      cases ha
      rw [he]
      simp
    · intro b hb
      simp only at hb
      rw [he] at hb
      simp only [List.map_cons, List.map_nil, List.head?_cons] at hb
      cases hb
      rw [he]
      simp
    · exact ⟨e.timestamp, by simp only; rw [he]; simp⟩
    · exact ⟨e.timestamp, by simp only; rw [he]; simp⟩
  · rw [if_neg h1]
    by_cases h2 : 1 < (dedupByKey r.rawData []).length
    · rw [if_pos h2]
      have hne : (dedupByKey r.rawData []).map (·.timestamp) ≠ [] := by
        intro hc
        rw [List.map_eq_nil_iff] at hc
        exact hu hc
      have hsne := sortTimes_ne_nil hne
      refine ⟨rfl, rfl, ?_, ?_, ?_, ?_⟩
      · intro a ha
        exact sortTimes_head?_min ha
      · intro b hb
        exact sortTimes_getLast?_max hb
      · have hx : (sortTimes ((dedupByKey r.rawData []).map
            (·.timestamp))).head? ≠ none :=
          fun hc => hsne (List.head?_eq_none_iff.mp hc)
        exact Option.ne_none_iff_exists'.mp hx
      · have hx : (sortTimes ((dedupByKey r.rawData []).map
            (·.timestamp))).getLast? ≠ none :=
          fun hc => hsne (List.getLast?_eq_none_iff.mp hc)
        exact Option.ne_none_iff_exists'.mp hx
    · exfalso
      have h0 : (dedupByKey r.rawData []).length = 0 := by omega
      exact hu (List.length_eq_zero.mp h0)

theorem recalc_frame (r : DayRecord) :
    (recalculateAttendanceTimes r).employeeCode = r.employeeCode ∧
    (recalculateAttendanceTimes r).date = r.date ∧
    (recalculateAttendanceTimes r).deviceId = r.deviceId := by
  simp only [recalculateAttendanceTimes]
  repeat' split
  all_goals exact ⟨rfl, rfl, rfl⟩

theorem recalc_idem (r : DayRecord) :
    recalculateAttendanceTimes (recalculateAttendanceTimes r) =
      recalculateAttendanceTimes r := by
  by_cases h : r.rawData = []
  · have e1 : recalculateAttendanceTimes r = r := by
      simp only [recalculateAttendanceTimes]
      rw [if_pos h]
    rw [e1]
    exact e1
  · obtain ⟨hraw, htot, hmin, hmax, ⟨a, hina⟩, ⟨b, houtb⟩⟩ := recalc_spec h
    have h' : (recalculateAttendanceTimes r).rawData ≠ [] := by
      rw [hraw]
      exact dedupByKey_nil_ne_nil h
    obtain ⟨hraw2, htot2, hmin2, hmax2, ⟨a2, hina2⟩, ⟨b2, houtb2⟩⟩ :=
      recalc_spec h'
    have hdd : dedupByKey (recalculateAttendanceTimes r).rawData [] =
        dedupByKey r.rawData [] := by
      rw [hraw]
      exact dedupByKey_idem _ []
    have hf := recalc_frame (recalculateAttendanceTimes r)
    obtain ⟨hma, hba⟩ := hmin a hina
    obtain ⟨hma2, hba2⟩ := hmin2 a2 hina2
    rw [hdd] at hma2 hba2
    have haa : a2 = a := le_antisymm (hba2 a hma) (hba a2 hma2)
    obtain ⟨hmb, hbb⟩ := hmax b houtb
    obtain ⟨hmb2, hbb2⟩ := hmax2 b2 houtb2
    rw [hdd] at hmb2 hbb2
    have hbb' : b2 = b := le_antisymm (hbb b2 hmb2) (hbb2 b hmb)
    refine DayRecord.ext' hf.1 hf.2.1 ?_ ?_ ?_ hf.2.2 ?_
    · rw [hina2, hina, haa]
    · rw [houtb2, houtb, hbb']
    · rw [htot2, hdd, htot]
    · rw [hraw2, hdd, hraw]

theorem fixAllGo_checkOut (rs : List DayRecord) :
    ∀ s ∈ (fixAllGo rs).1,
      (recalculateAttendanceTimes s).checkOutTime = s.checkOutTime := by
  induction rs with
  | nil =>
    intro s hs
    cases hs
  | cons r rs ih =>
    intro s hs
    simp only [fixAllGo] at hs
    by_cases hc :
        (recalculateAttendanceTimes r).checkOutTime = r.checkOutTime
    · rw [if_pos hc] at hs
      rcases List.mem_cons.mp hs with rfl | hs'
      · exact hc
      · exact ih s hs'
    · rw [if_neg hc] at hs
      rcases List.mem_cons.mp hs with rfl | hs'
      · rw [recalc_idem]
      · exact ih s hs'

theorem fixAllGo_stable {rs : List DayRecord}
    (hall : ∀ s ∈ rs,
      (recalculateAttendanceTimes s).checkOutTime = s.checkOutTime) :
    fixAllGo rs = (rs, 0) := by
  induction rs with
  | nil => rfl
  | cons r rs ih =>
    have hr := hall r (List.mem_cons_self r rs)
    have hrest := ih fun s hs => hall s (List.mem_cons_of_mem r hs)
    simp only [fixAllGo, if_pos hr, hrest]

theorem fixAllGo_eq (rs : List DayRecord) :
    fixAllGo rs =
      (rs.map fun r =>
        if (recalculateAttendanceTimes r).checkOutTime = r.checkOutTime then r
        else recalculateAttendanceTimes r,
       rs.countP fun r =>
        !((recalculateAttendanceTimes r).checkOutTime == r.checkOutTime)) := by
  induction rs with
  | nil => rfl
  | cons r rs ih =>
    simp only [fixAllGo, ih, List.map_cons, List.countP_cons]
    by_cases hc :
        (recalculateAttendanceTimes r).checkOutTime = r.checkOutTime
    · simp [hc]
    · simp [hc]

theorem uploadBatchCounts_cons (off : Int) (x : BatchItem) (l : List BatchItem) :
    uploadBatchCounts off (x :: l) =
      ((uploadBatchCounts off l).1 + (uploadBatchCounts off [x]).1,
       (uploadBatchCounts off l).2 + (uploadBatchCounts off [x]).2) := by
  simp only [uploadBatchCounts]
  rcases x.fingerprintCode with _ | fc
  · rfl
  · rcases x.dateTime with _ | dt
    · rfl
    · dsimp only
      rcases parseAttendanceTimestamp off dt with _ | t
      · rfl
      · rfl

theorem uploadBatchCounts_append (off : Int) (l1 l2 : List BatchItem) :
    uploadBatchCounts off (l1 ++ l2) =
      ((uploadBatchCounts off l1).1 + (uploadBatchCounts off l2).1,
       (uploadBatchCounts off l1).2 + (uploadBatchCounts off l2).2) := by
  induction l1 with
  | nil => simp [uploadBatchCounts]
  | cons x xs ih =>
    rw [List.cons_append, uploadBatchCounts_cons off x (xs ++ l2), ih,
      uploadBatchCounts_cons off x xs]
    simp only [Prod.mk.injEq]
    omega

theorem uploadBatchCounts_missing {item : BatchItem}
    (h : item.fingerprintCode = none ∨ item.dateTime = none) (off : Int) :
    uploadBatchCounts off [item] = (0, 1) := by
  rcases item with ⟨fc, dt⟩
  rcases h with h | h
  · simp only at h
    subst h
    rfl
  · simp only at h
    subst h
    rcases fc with _ | c
    · rfl
    · rfl

theorem handleHikvisionPosts_cons (off : Int) (top : Option String)
    (x : HikPost) (l : List HikPost) :
    handleHikvisionPosts off top (x :: l) =
      ((handleHikvisionPosts off top l).1 +
        (handleHikvisionPosts off top [x]).1,
       (handleHikvisionPosts off top l).2 +
        (handleHikvisionPosts off top [x]).2) := by
  simp only [handleHikvisionPosts]
  rcases hikEmployeeCode x with _ | ec
  · rfl
  · rcases x.dateTime.or top with _ | ts
    · rfl
    · dsimp only
      rcases parseAttendanceTimestamp off ts with _ | t
      · rfl
      · rfl

theorem handleHikvisionPosts_append (off : Int) (top : Option String)
    (l1 l2 : List HikPost) :
    handleHikvisionPosts off top (l1 ++ l2) =
      ((handleHikvisionPosts off top l1).1 +
        (handleHikvisionPosts off top l2).1,
       (handleHikvisionPosts off top l1).2 +
        (handleHikvisionPosts off top l2).2) := by
  induction l1 with
  | nil => simp [handleHikvisionPosts]
  | cons x xs ih =>
    rw [List.cons_append, handleHikvisionPosts_cons off top x (xs ++ l2), ih,
      handleHikvisionPosts_cons off top x xs]
    simp only [Prod.mk.injEq]
    omega

theorem handleHikvisionPosts_missing {post : HikPost} {top : Option String}
    (h : hikEmployeeCode post = none ∨ post.dateTime.or top = none)
    (off : Int) : handleHikvisionPosts off top [post] = (0, 0) := by
  simp only [handleHikvisionPosts]
  rcases h with h | h
  · rw [h]
  · rcases hc : hikEmployeeCode post with _ | ec
    · rfl
    · rw [h]

theorem modelInv_foldl (evs : List (Int × Option String)) (r : DayRecord)
    (hr : modelInv r) :
    modelInv (evs.foldl (fun r e => updateAttendanceTime r e.1 e.2) r) := by
  induction evs generalizing r with
  | nil => exact hr
  | cons e es ih =>
    exact ih _ ⟨fun a b ha hb => updateAttendanceTime_le ha hb,
      updateAttendanceTime_total _ _ _⟩

/-- C1: the ingestion path rejects an incoming event as a duplicate iff some
already-logged event has the same `deviceId` and an absolute timestamp
difference strictly below 30 seconds; two same-device events exactly 30.000 s
apart pass in either order (open boundary), and events 1 s apart on
different devices pass. -/
theorem c1_duplicate_rule :
    (∀ (raw : List RawEvent) (t : Int) (d : Option String),
      isDuplicate raw t d = true ↔
        ∃ e ∈ raw, e.deviceId = d ∧ (t - e.timestamp).natAbs < 30000) ∧
    isDuplicate [⟨0, some "A"⟩] 30000 (some "A") = false ∧
    isDuplicate [⟨30000, some "A"⟩] 0 (some "A") = false ∧
    isDuplicate [⟨0, some "A"⟩] 29999 (some "A") = true ∧
    isDuplicate [⟨0, some "A"⟩] 1000 (some "B") = false := by
  refine ⟨?_, by decide, by decide, by decide, by decide⟩
  intro raw t d
  simp only [isDuplicate, List.any_eq_true, Bool.and_eq_true,
    decide_eq_true_eq, beq_iff_eq]
  constructor
  · rintro ⟨e, he, h1, h2⟩
    exact ⟨e, he, h2, by omega⟩
  · rintro ⟨e, he, h1, h2⟩
    exact ⟨e, he, by omega, h1⟩

/-- C2 counterexample: on the deduplicating ingestion path the in-order §8
scenario ends with `checkOutTime = 17:45`, but ingesting `17:45:00` first and
`08:02:11` second leaves `checkOutTime` null, so the out-of-order final
record is not identical to the in-order one as the claim states. -/
theorem c2_out_of_order_counterexample :
    scenarioInOrder.check_out_time = some scenarioT3 ∧
    scenarioOutOfOrder.check_out_time = none ∧
    scenarioOutOfOrder ≠ scenarioInOrder := by decide

/-- C2 (amended): in order, the scenario yields `checkInTime = 08:02:11`,
`checkOutTime = 17:45:00`, `totalCheckIns = 2` with the same-device
`08:02:15` event rejected; out of order (`17:45:00` then `08:02:11`) the
hour-of-day boundary logic yields `checkInTime = 08:02:11` but leaves
`checkOutTime` null, so the final record differs from the in-order case. -/
theorem c2_scenario_amended :
    scenarioInOrder =
      ⟨some scenarioT1, some scenarioT3, 2,
       [⟨scenarioT1, some "D1"⟩, ⟨scenarioT3, some "D1"⟩]⟩ ∧
    scenarioOutOfOrder =
      ⟨some scenarioT1, none, 2,
       [⟨scenarioT3, some "D1"⟩, ⟨scenarioT1, some "D1"⟩]⟩ := by decide

/-- C3 counterexample: two raw events 10 s apart on the same device are
duplicates under the deduplication-filter rule, yet the repair operation
keeps both (it only removes exact timestamp+device matches), so repair does
not use the same rule as the filter. -/
theorem c3_repair_rule_counterexample :
    isDuplicate [⟨0, some "A"⟩] 10000 (some "A") = true ∧
    dedupByFilterRule closePairRecord.rawData = [⟨0, some "A"⟩] ∧
    (recalculateAttendanceTimes closePairRecord).rawData =
      [⟨0, some "A"⟩, ⟨10000, some "A"⟩] ∧
    (recalculateAttendanceTimes closePairRecord).totalCheckIns = 2 := by
  decide

/-- C3 (amended): the repair operation removes only exact duplicates (same
millisecond timestamp and same deviceId), keeping the first occurrence of
each key, and then sets `checkInTime` to the minimum and `checkOutTime` to
the maximum timestamp of the deduplicated list and `totalCheckIns` to its
size. -/
theorem c3_repair_amended (r : DayRecord) (h : r.rawData ≠ []) :
    (recalculateAttendanceTimes r).rawData = dedupByKey r.rawData [] ∧
    (recalculateAttendanceTimes r).totalCheckIns =
      (recalculateAttendanceTimes r).rawData.length ∧
    (∀ a, (recalculateAttendanceTimes r).checkInTime = some a →
      a ∈ (recalculateAttendanceTimes r).rawData.map (·.timestamp) ∧
      ∀ x ∈ (recalculateAttendanceTimes r).rawData.map (·.timestamp), a ≤ x) ∧
    (∀ b, (recalculateAttendanceTimes r).checkOutTime = some b →
      b ∈ (recalculateAttendanceTimes r).rawData.map (·.timestamp) ∧
      ∀ x ∈ (recalculateAttendanceTimes r).rawData.map (·.timestamp), x ≤ b) ∧
    (∃ a, (recalculateAttendanceTimes r).checkInTime = some a) ∧
    (∃ b, (recalculateAttendanceTimes r).checkOutTime = some b) := by
  obtain ⟨hraw, htot, hmin, hmax, hex1, hex2⟩ := recalc_spec h
  refine ⟨hraw, ?_, ?_, ?_, hex1, hex2⟩
  · rw [htot, hraw]
  · intro a ha
    rw [hraw]
    exact hmin a ha
  · intro b hb
    rw [hraw]
    exact hmax b hb

/-- C3 witness: the amended repair characterization applied at a concrete
record. -/
theorem c3_repair_amended_witness :
    (recalculateAttendanceTimes closePairRecord).totalCheckIns =
      (recalculateAttendanceTimes closePairRecord).rawData.length :=
  (c3_repair_amended closePairRecord (by decide)).2.1

/-- C4: after every write on either ingestion path, `checkInTime ≤
checkOutTime` whenever both are non-null and `totalCheckIns` equals the
length of the stored raw-event list. -/
theorem c4_invariants (evsM evsC : List (Int × Option String))
    (hourOf : Int → Int) :
    ((∀ a b, (applyModelEvents evsM).checkInTime = some a →
        (applyModelEvents evsM).checkOutTime = some b → a ≤ b) ∧
      (applyModelEvents evsM).totalCheckIns =
        (applyModelEvents evsM).rawData.length) ∧
    ((∀ a b, (applyProcessEvents hourOf evsC).check_in_time = some a →
        (applyProcessEvents hourOf evsC).check_out_time = some b → a ≤ b) ∧
      (applyProcessEvents hourOf evsC).total_check_ins =
        (applyProcessEvents hourOf evsC).raw_data.length) := by
  constructor
  · have base : modelInv (freshDayRecord "E1" 0 none) :=
      ⟨fun a b ha _ => Option.noConfusion ha, rfl⟩
    exact modelInv_foldl evsM _ base
  · exact applyProcessEvents_inv hourOf evsC

/-- C5: day bucketing is fixed-offset arithmetic: the instants
2025-01-14T17:00:00Z and 2025-01-15T01:00:00Z both map to the canonical key
2025-01-14T17:00:00Z (Vietnam midnight of 2025-01-15), which is also the key
obtained from the calendar string "2025-01-15", so a day query for that
string covers both instants. -/
theorem c5_day_bucketing :
    normalizeDateToVNTimezone (msOfUTC 2025 1 14 17 0 0) =
      msOfUTC 2025 1 14 17 0 0 ∧
    normalizeDateToVNTimezone (msOfUTC 2025 1 15 1 0 0) =
      msOfUTC 2025 1 14 17 0 0 ∧
    parseAndNormalizeDateString "2025-01-15" =
      some (msOfUTC 2025 1 14 17 0 0) := by decide

/-- C6: the timestamp normalizer handles `Z` and `+00:00` inputs as UTC and
rejects invalid calendar strings, but on a host at +07:00 it reads an
offset-less date-time as host-local time, 7 hours earlier than the
fields-as-UTC instant the claim (and the code's own comments) prescribe. -/
theorem c6_naive_timestamp_host_dependent :
    parseAttendanceTimestamp vnHostOffsetMs "2025-01-15T08:30:00" =
      some (msOfUTC 2025 1 15 1 30 0) ∧
    msOfUTC 2025 1 15 1 30 0 ≠ msOfUTC 2025 1 15 8 30 0 ∧
    parseAttendanceTimestamp vnHostOffsetMs "2025-01-15T08:30:00Z" =
      some (msOfUTC 2025 1 15 8 30 0) ∧
    parseAttendanceTimestamp vnHostOffsetMs "2025-01-15T08:30:00+00:00" =
      some (msOfUTC 2025 1 15 8 30 0) ∧
    parseAttendanceTimestamp vnHostOffsetMs "2025-02-30T08:30:00" = none ∧
    parseAttendanceTimestamp vnHostOffsetMs "garbage" = none := by decide

/-- C7: repair is idempotent: recalculating twice equals recalculating once,
and a second batch repair pass leaves every record unchanged and reports
zero records changed. -/
theorem c7_repair_idempotent :
    (∀ r : DayRecord,
      recalculateAttendanceTimes (recalculateAttendanceTimes r) =
        recalculateAttendanceTimes r) ∧
    (∀ rs : List DayRecord,
      fixAllAttendanceForEmployee (fixAllAttendanceForEmployee rs).records =
        ⟨(fixAllAttendanceForEmployee rs).records, 0,
         (fixAllAttendanceForEmployee rs).records.length⟩) := by
  constructor
  · exact recalc_idem
  · intro rs
    have hall := fixAllGo_checkOut rs
    have hstable := fixAllGo_stable hall
    simp only [fixAllAttendanceForEmployee]
    rw [hstable]

/-- C8 counterexample: a record whose recomputed `checkInTime`,
`totalCheckIns` and deduplicated raw list all differ from the stored values
is not written back by the batch repair (zero records changed), because the
write-back test compares only `checkOutTime`. -/
theorem c8_writeback_counterexample :
    (recalculateAttendanceTimes staleCheckInRecord).checkInTime ≠
      staleCheckInRecord.checkInTime ∧
    (recalculateAttendanceTimes staleCheckInRecord).totalCheckIns ≠
      staleCheckInRecord.totalCheckIns ∧
    (recalculateAttendanceTimes staleCheckInRecord).rawData ≠
      staleCheckInRecord.rawData ∧
    (recalculateAttendanceTimes staleCheckInRecord).checkOutTime =
      staleCheckInRecord.checkOutTime ∧
    fixAllAttendanceForEmployee [staleCheckInRecord] =
      ⟨[staleCheckInRecord], 0, 1⟩ := by decide

/-- C8 (amended): the batch repair writes a record back iff the recomputed
`checkOutTime` differs from the stored one; it reports the count of records
so changed alongside the count of records examined. -/
theorem c8_writeback_amended (rs : List DayRecord) :
    fixAllAttendanceForEmployee rs =
      ⟨rs.map fun r =>
        if (recalculateAttendanceTimes r).checkOutTime = r.checkOutTime then r
        else recalculateAttendanceTimes r,
       rs.countP fun r =>
        !((recalculateAttendanceTimes r).checkOutTime == r.checkOutTime),
       rs.length⟩ := by
  simp only [fixAllAttendanceForEmployee, fixAllGo_eq]

/-- C9 counterexample: a batch-upload item lacking its `dateTime` is pushed
onto the reported error list (here one error, not zero), while its sibling
item is still processed. -/
theorem c9_batch_missing_field_counterexample :
    uploadBatchCounts vnHostOffsetMs
      [⟨some "E1", none⟩, ⟨some "E2", some "2025-01-15T08:30:00Z"⟩] =
      (1, 1) := by decide

/-- C9 (amended): a webhook post lacking an employee code or timestamp is
silently skipped (the counts are as if it were absent) with siblings still
processed; a batch-upload item lacking `fingerprintCode` or `dateTime` is
recorded as one error, with siblings still processed. -/
theorem c9_missing_field_amended (off : Int) (top : Option String)
    (post : HikPost) (pre suf : List HikPost)
    (hpost : hikEmployeeCode post = none ∨ post.dateTime.or top = none)
    (item : BatchItem) (pre2 suf2 : List BatchItem)
    (hitem : item.fingerprintCode = none ∨ item.dateTime = none) :
    handleHikvisionPosts off top (pre ++ post :: suf) =
      handleHikvisionPosts off top (pre ++ suf) ∧
    (uploadBatchCounts off (pre2 ++ item :: suf2)).1 =
      (uploadBatchCounts off (pre2 ++ suf2)).1 ∧
    (uploadBatchCounts off (pre2 ++ item :: suf2)).2 =
      (uploadBatchCounts off (pre2 ++ suf2)).2 + 1 := by
  refine ⟨?_, ?_, ?_⟩
  · rw [handleHikvisionPosts_append off top pre (post :: suf),
      handleHikvisionPosts_cons off top post suf,
      handleHikvisionPosts_missing hpost off,
      handleHikvisionPosts_append off top pre suf]
    simp
  · rw [uploadBatchCounts_append off pre2 (item :: suf2),
      uploadBatchCounts_cons off item suf2,
      uploadBatchCounts_missing hitem off,
      uploadBatchCounts_append off pre2 suf2]
    simp
  · rw [uploadBatchCounts_append off pre2 (item :: suf2),
      uploadBatchCounts_cons off item suf2,
      uploadBatchCounts_missing hitem off,
      uploadBatchCounts_append off pre2 suf2]
    simp only []
    omega

/-- C9 witness: the amended skip/error behaviour at concrete payloads. -/
theorem c9_missing_field_amended_witness :
    handleHikvisionPosts vnHostOffsetMs none
        ([] ++ (⟨none, none, none, none, none, none⟩ : HikPost) :: []) =
      handleHikvisionPosts vnHostOffsetMs none ([] ++ []) ∧
    (uploadBatchCounts vnHostOffsetMs
        ([] ++ (⟨some "E1", none⟩ : BatchItem) :: [])).1 =
      (uploadBatchCounts vnHostOffsetMs ([] ++ [])).1 ∧
    (uploadBatchCounts vnHostOffsetMs
        ([] ++ (⟨some "E1", none⟩ : BatchItem) :: [])).2 =
      (uploadBatchCounts vnHostOffsetMs ([] ++ [])).2 + 1 :=
  c9_missing_field_amended vnHostOffsetMs none
    ⟨none, none, none, none, none, none⟩ [] [] (Or.inl rfl)
    ⟨some "E1", none⟩ [] [] (Or.inr rfl)

/-- C10: the first event appended to a freshly created day record sets both
`checkInTime` and `checkOutTime` to that event's instant, and after any
update through the model's record-update method `checkInTime` is null iff
`checkOutTime` is null (both are in fact always non-null). -/
theorem c10_first_event_boundaries (r : DayRecord) (t : Int)
    (d : Option String) (h : r.rawData = []) :
    (updateAttendanceTime r t d).checkInTime = some t ∧
    (updateAttendanceTime r t d).checkOutTime = some t ∧
    ∀ (r' : DayRecord) (t' : Int) (d' : Option String),
      ((updateAttendanceTime r' t' d').checkInTime = none ↔
        (updateAttendanceTime r' t' d').checkOutTime = none) := by
  refine ⟨?_, ?_, ?_⟩
  · simp [updateAttendanceTime, h]
  · simp [updateAttendanceTime, h]
  · intro r' t' d'
    obtain ⟨⟨a, ha⟩, ⟨b, hb⟩⟩ := updateAttendanceTime_isSome r' t' d'
    constructor
    · intro hc
      rw [hc] at ha
      cases ha
    · intro hc
      rw [hc] at hb
      cases hb

/-- C10 witness: the first event at a concrete fresh record. -/
theorem c10_first_event_boundaries_witness :
    (updateAttendanceTime (freshDayRecord "E1" 0 none) 5 none).checkInTime =
      some 5 ∧
    (updateAttendanceTime (freshDayRecord "E1" 0 none) 5 none).checkOutTime =
      some 5 ∧
    ∀ (r' : DayRecord) (t' : Int) (d' : Option String),
      ((updateAttendanceTime r' t' d').checkInTime = none ↔
        (updateAttendanceTime r' t' d').checkOutTime = none) :=
  c10_first_event_boundaries (freshDayRecord "E1" 0 none) 5 none rfl
